import Mathlib

/-!
Verification of the signaling/peer-lifecycle core of `matchbox_nostr`
(`src/matchbox_socket_nostr/src/webrtc_socket/mod.rs`).

The two async loops are shallowly embedded as pure functions:

* `signaling_loop_body` folds over the sequence of outcomes of the
  `select!` in `signaling_loop` (lines 95-221): each iteration either
  receives an outbound `PeerRequest` from the message loop or a frame
  (or error) from the signaller.  The loop keeps no mutable state
  between iterations, so a run is determined by that sequence.
* `message_loop` is a step machine over `MsgState`, the loop-local
  state of `message_loop` (lines 262-374): the handshake-signal map,
  the sets of in-flight handshakes and peer loops, the data-channel
  map, the identity one-shot and the keep-alive timer.  Each
  `MsgInput` is the firing of one `select!` branch; branches that the
  real loop could not fire (a handshake completing when none is in
  flight, the timer expiring while disabled) are no-ops.

Cryptography and serialization are external collaborators (spec section 1
declares them out of scope); they enter as the function fields of
`CryptoModel`, with a concrete fixture `demo_crypto` used to evaluate
runs on closed inputs.
-/

set_option linter.unusedVariables false

namespace MatchboxNostr

/-! ## Data model (`matchbox_protocol`, `messages`, nostr types) -/

/-- `PeerId(XOnlyPublicKey)`: a public-key identifier, abstracted to `Nat`. -/
abbrev PubKey := Nat

/-- A secp256k1 secret key, abstracted to `Nat`. -/
abbrev SecKey := Nat

/-- Modelled from the spec: `PeerId` is a 32-byte public key identifier
compared by raw bytes (spec section 3); the wrapped key is the identifier. -/
abbrev PeerId := PubKey

/-- Modelled from the spec: `PeerSignal` is an opaque blob of SDP/ICE data
interpreted only by the `Messenger` (spec section 3). -/
abbrev PeerSignal := String

/-- `pub type Packet = Box<[u8]>`: an opaque byte buffer. -/
abbrev Packet := List Nat

/-- The local nostr keypair (`nostr::Keys`). -/
structure Keys where
  secret_key : SecKey
  public_key : PubKey
deriving DecidableEq

/-- Modelled from the spec: `PeerRequest` (spec section 3), the outbound
peer-to-peer envelope; its definition lives in `matchbox_protocol`,
which is not under `src/`. -/
inductive PeerRequest
  | Signal (receiver : PeerId) (data : PeerSignal)
  | KeepAlive
deriving DecidableEq

/-- Modelled from the spec: `PeerEvent` (spec section 3), the inbound event
type of the message loop; its definition lives in `matchbox_protocol`,
which is not under `src/`. -/
inductive PeerEvent
  | IdAssigned (peer : PeerId)
  | NewPeer (peer : PeerId)
  | PeerLeft (peer : PeerId)
  | Signal (sender : PeerId) (data : PeerSignal)
deriving DecidableEq

/-- `PeerState` as re-exported from `socket`. -/
inductive PeerState
  | Connected
  | Disconnected
deriving DecidableEq

/-- `nostr::Kind`, with the one kind the core cares about distinguished. -/
inductive Kind
  | EncryptedDirectMessage
  | Other (k : Nat)
deriving DecidableEq

/-- `nostr::Tag`, restricted to the two constructors the core builds
(`Tag::PubKey(key, relay)` and `Tag::Hashtag(tag)`). -/
inductive Tag
  | PubKey (key : PubKey) (relay : Option String)
  | Hashtag (tag : String)
deriving DecidableEq

/-- `nostr::Event`: `{ id, pubkey, created_at, kind, tags, content, sig }`.
`id` and `sig` are abstracted to `Nat` (hash and signature values). -/
structure Event where
  id : Nat
  pubkey : PubKey
  created_at : Nat
  kind : Kind
  tags : List Tag
  content : String
  sig : Nat
deriving DecidableEq

/-- `nostr::RelayMessage`: the relay-to-client frames dispatched at
lines 143-203 of `mod.rs`. -/
inductive RelayMessage
  | Event (event : MatchboxNostr.Event) (subscription_id : String)
  | Notice (message : String)
  | EndOfStoredEvents (subscription_id : String)
  | Ok (event_id : Nat) (status : Bool) (message : String)
  | Auth (challenge : String)
  | Count (subscription_id : String) (count : Nat)
  | Empty
deriving DecidableEq

/-- `nostr::ClientMessage`, restricted to the two frames the loop sends:
the `REQ` subscription (lines 75-83) and outbound `EVENT`s (line 127). -/
inductive ClientMessage
  | Req (subscription_id : String) (kinds : List Kind) (since : Nat)
  | Event (event : MatchboxNostr.Event)
deriving DecidableEq

/-- `SignalingError` (`webrtc_socket::error`, not under `src/`).
Modelled from the spec: the error taxonomy of spec section 7. -/
inductive SignalingError
  | ConnectionFailed
  | UnknownFormat
  | Serialization
  | StreamClosed
deriving DecidableEq

/-- Modelled from the spec: the out-of-scope cryptographic and
serialization collaborators (spec section 1): NIP-04 `encrypt`/`decrypt`,
the canonical `EventId` hash, Schnorr signing, and the serde
codecs for the peer-to-peer envelopes and the relay wire protocol. -/
structure CryptoModel where
  encrypt : SecKey → PubKey → String → String
  decrypt : SecKey → PubKey → String → Option String
  event_id : PubKey → Nat → Kind → List Tag → String → Nat
  sign_schnorr : SecKey → Nat → Nat
  serialize_peer_request : PeerRequest → String
  parse_peer_request : String → Option PeerRequest
  parse_peer_event : String → Option PeerEvent
  parse_relay_message : String → Option RelayMessage

/-! ## Signaling loop (lines 59-222 of `mod.rs`) -/

/-- The request branch of the `select!` (lines 97-135): a
`PeerRequest::Signal { receiver, data }` is serialized (serde's `Option`
is transparent for `Some`, so serializing the received
`Option<PeerRequest>` serializes the request itself), encrypted to the
receiver, wrapped in a signed kind-4 event carrying the p-tag and the
`matchbox-nostr-1` hashtag, and sent as one `EVENT` frame; anything
else (`KeepAlive` or a closed channel) sends nothing. -/
def handle_request (c : CryptoModel) (keys : Keys) (now : Nat) :
    Option PeerRequest → List ClientMessage
  | some (PeerRequest.Signal receiver data) =>
      let request := c.serialize_peer_request (PeerRequest.Signal receiver data)
      let created_at := now
      let kind := Kind.EncryptedDirectMessage
      let tags := [Tag.PubKey receiver none, Tag.Hashtag "matchbox-nostr-1"]
      let content := c.encrypt keys.secret_key receiver request
      let id := c.event_id keys.public_key created_at kind tags content
      [ClientMessage.Event
        { id := id
          kind := kind
          content := content
          pubkey := keys.public_key
          created_at := created_at
          tags := tags
          sig := c.sign_schnorr keys.secret_key id }]
  | _ => []

/-- The dispatch over a parsed `RelayMessage` (lines 143-203): events from
the local key are ignored; encrypted direct messages are decrypted and
the plaintext is tried as a `PeerRequest` first (a `Signal` is re-emitted
with `sender` set to the event's pubkey and the inner `receiver` dropped,
a `KeepAlive` is dropped) and as a `PeerEvent` second (forwarded
verbatim); every other frame variant produces no event. -/
def handle_relay_message (c : CryptoModel) (keys : Keys) :
    RelayMessage → List PeerEvent
  | RelayMessage.Event event _subscription_id =>
      if event.pubkey = keys.public_key then
        []
      else if event.kind = Kind.EncryptedDirectMessage then
        match c.decrypt keys.secret_key event.pubkey event.content with
        | some msg =>
            let peer_key := event.pubkey
            match c.parse_peer_request msg with
            | some (PeerRequest.Signal _receiver data) =>
                [PeerEvent.Signal peer_key data]
            | some PeerRequest.KeepAlive => []
            | none =>
                match c.parse_peer_event msg with
                | some new_peer => [new_peer]
                | none => []
        | none => []
      else []
  | RelayMessage.Notice _message => []
  | RelayMessage.EndOfStoredEvents _subscription_id => []
  | RelayMessage.Ok _event_id _status _message => []
  | RelayMessage.Auth _challenge => []
  | RelayMessage.Count _subscription_id _count => []
  | RelayMessage.Empty => []

/-- An inbound text frame (line 142): parse failures of the relay frame
are ignored. -/
def handle_relay_frame (c : CryptoModel) (keys : Keys) (message : String) :
    List PeerEvent :=
  match c.parse_relay_message message with
  | some m => handle_relay_message c keys m
  | none => []

instance instDecEqExcept {ε α : Type} [DecidableEq ε] [DecidableEq α] :
    DecidableEq (Except ε α) := fun a b =>
  match a, b with
  | Except.ok x, Except.ok y =>
      if h : x = y then isTrue (h ▸ rfl) else isFalse fun hh => h (Except.ok.inj hh)
  | Except.ok _, Except.error _ => isFalse fun hh => Except.noConfusion hh
  | Except.error _, Except.ok _ => isFalse fun hh => Except.noConfusion hh
  | Except.error e, Except.error f =>
      if h : e = f then isTrue (h ▸ rfl) else isFalse fun hh => h (Except.error.inj hh)

/-- One outcome of the signaling loop's `select!`: either the request
branch fired (with the `Timestamp::now()` observed at that moment) or
the signaller branch fired. -/
inductive SigStep
  | request (request : Option PeerRequest) (now : Nat)
  | message (message : Except SignalingError String)
deriving DecidableEq

/-- What a run of the signaling loop produces: the `PeerEvent`s pushed on
the event channel, the frames sent to the relay, and the loop's result. -/
structure SigResult where
  events : List PeerEvent
  sent : List ClientMessage
  result : Except SignalingError Unit
deriving DecidableEq

/-- The `loop { select! { ... } }` of `signaling_loop` (lines 95-221),
folded over the sequence of select outcomes.  A recoverable
`UnknownFormat` from the signaller is skipped (line 209); any other
signaller error breaks the loop with that error (line 213); exhausting
all sources is the `complete` branch, `break Ok(())` (line 218). -/
def signaling_loop_body (c : CryptoModel) (keys : Keys) :
    List SigStep → SigResult
  | [] => ⟨[], [], Except.ok ()⟩
  | SigStep.request request now :: rest =>
      let sent := handle_request c keys now request
      let tail := signaling_loop_body c keys rest
      ⟨tail.events, sent ++ tail.sent, tail.result⟩
  | SigStep.message (Except.ok message) :: rest =>
      let events := handle_relay_frame c keys message
      let tail := signaling_loop_body c keys rest
      ⟨events ++ tail.events, tail.sent, tail.result⟩
  | SigStep.message (Except.error err) :: rest =>
      if err = SignalingError.UnknownFormat then
        signaling_loop_body c keys rest
      else
        ⟨[], [], Except.error err⟩

/-- `signaling_loop` after a successful `S::new` (lines 68-93 then the
loop): the `REQ` subscription for kind-4 events since `now` is sent
first, `IdAssigned(localPubKey)` is pushed on the event channel, and
then the select loop runs. -/
def signaling_loop (c : CryptoModel) (keys : Keys) (subscription_id : String)
    (now : Nat) (steps : List SigStep) : SigResult :=
  let body := signaling_loop_body c keys steps
  ⟨PeerEvent.IdAssigned keys.public_key :: body.events,
   ClientMessage.Req subscription_id [Kind.EncryptedDirectMessage] now :: body.sent,
   body.result⟩

/-! ## Theorems on the signaling loop -/

/-- C3: in every run of the signaling loop the first `PeerEvent` emitted
on the events channel is `IdAssigned(localPubKey)` (the public key of the
supplied keypair); no `NewPeer`, `PeerLeft` or `Signal` event precedes it. -/
theorem c3_identity_first (c : CryptoModel) (keys : Keys)
    (subscription_id : String) (now : Nat) (steps : List SigStep) :
    (signaling_loop c keys subscription_id now steps).events.head? =
      some (PeerEvent.IdAssigned keys.public_key) := rfl

/-- C6: a `PeerRequest::Signal { receiver, data }` received on the request
channel sends exactly one relay `EVENT` frame, whose event has kind
`EncryptedDirectMessage`, pubkey the local public key, the p-tag for the
receiver and the `matchbox-nostr-1` hashtag, content the NIP-04
encryption (local secret key to the receiver) of the serialized full
request, id the canonical hash over (pubkey, created_at, kind, tags,
content), and sig a Schnorr signature of that id under the local key. -/
theorem c6_outbound_signal_event (c : CryptoModel) (keys : Keys) (now : Nat)
    (receiver : PeerId) (data : PeerSignal) :
    ∃ e : Event,
      handle_request c keys now (some (PeerRequest.Signal receiver data)) =
          [ClientMessage.Event e]
        ∧ (signaling_loop_body c keys
            [SigStep.request (some (PeerRequest.Signal receiver data)) now]).sent =
          [ClientMessage.Event e]
        ∧ e.kind = Kind.EncryptedDirectMessage
        ∧ e.pubkey = keys.public_key
        ∧ e.created_at = now
        ∧ e.tags = [Tag.PubKey receiver none, Tag.Hashtag "matchbox-nostr-1"]
        ∧ e.content = c.encrypt keys.secret_key receiver
            (c.serialize_peer_request (PeerRequest.Signal receiver data))
        ∧ e.id = c.event_id e.pubkey e.created_at e.kind e.tags e.content
        ∧ e.sig = c.sign_schnorr keys.secret_key e.id := by
  exact ⟨_, rfl, rfl, rfl, rfl, rfl, rfl, rfl, rfl, rfl⟩

/-! ## Concrete fixture for the external collaborators

Modelled from the spec: a closed instance of `CryptoModel` used to
evaluate the loops on concrete inputs.  Decryption succeeds on
everything except a marked undecryptable string (under NIP-04 any
party can produce a ciphertext that the local key decrypts, by
encrypting to the local public key), and the envelope codecs
recognize a few fixed strings, disjoint between `PeerRequest` and
`PeerEvent` forms as spec section 6 lists them. -/

def demo_keys : Keys := ⟨10, 1⟩

def demo_serialize_peer_request : PeerRequest → String
  | PeerRequest.Signal receiver data =>
      "request-signal:" ++ toString receiver ++ ":" ++ data
  | PeerRequest.KeepAlive => "request-keepalive"

def demo_parse_peer_request (s : String) : Option PeerRequest :=
  if s = "request-keepalive" then some PeerRequest.KeepAlive
  else if s = "request-signal:2:offer" then some (PeerRequest.Signal 2 "offer")
  else none

def demo_parse_peer_event (s : String) : Option PeerEvent :=
  if s = "event-signal-from-local" then some (PeerEvent.Signal 1 "x")
  else if s = "event-id-assigned-5" then some (PeerEvent.IdAssigned 5)
  else if s = "event-new-peer-3" then some (PeerEvent.NewPeer 3)
  else none

/-- A remote (pubkey 2) kind-4 event whose decrypted content parses only
as `PeerEvent::Signal { sender: 1, .. }` — the local public key. -/
def demo_forged_signal_event : Event :=
  { id := 0, pubkey := 2, created_at := 0, kind := Kind.EncryptedDirectMessage,
    tags := [], content := "event-signal-from-local", sig := 0 }

/-- A remote (pubkey 2) kind-4 event whose decrypted content parses only
as `PeerEvent::IdAssigned(5)`. -/
def demo_forged_id_event : Event :=
  { id := 0, pubkey := 2, created_at := 0, kind := Kind.EncryptedDirectMessage,
    tags := [], content := "event-id-assigned-5", sig := 0 }

def demo_parse_relay_message (s : String) : Option RelayMessage :=
  if s = "frame-forged-signal" then
    some (RelayMessage.Event demo_forged_signal_event "sub")
  else if s = "frame-id-assigned" then
    some (RelayMessage.Event demo_forged_id_event "sub")
  else none

def demo_crypto : CryptoModel where
  encrypt := fun _ _ s => s
  decrypt := fun _ _ s => if s = "undecryptable" then none else some s
  event_id := fun pk created_at _ _ _ => pk + created_at
  sign_schnorr := fun sk id => sk + id
  serialize_peer_request := demo_serialize_peer_request
  parse_peer_request := demo_parse_peer_request
  parse_peer_event := demo_parse_peer_event
  parse_relay_message := demo_parse_relay_message

/-! ## C4: inbound EVENT dispatch -/

/-- Modelled from the spec: the inbound `EVENT` dispatch as spec
section 4.2 words it — ignore self-echo, require kind 4, decrypt or drop,
try `PeerRequest` first (re-emit a `Signal` with `sender = event.pubkey`,
drop a `KeepAlive` silently), only then try `PeerEvent` and forward it
verbatim, otherwise drop. -/
def inbound_event_dispatch_spec (c : CryptoModel) (keys : Keys)
    (event : Event) : List PeerEvent :=
  if event.pubkey = keys.public_key then []
  else if event.kind ≠ Kind.EncryptedDirectMessage then []
  else
    match c.decrypt keys.secret_key event.pubkey event.content with
    | none => []
    | some plain =>
        match c.parse_peer_request plain, c.parse_peer_event plain with
        | some (PeerRequest.Signal _receiver data), _ =>
            [PeerEvent.Signal event.pubkey data]
        | some PeerRequest.KeepAlive, _ => []
        | none, some forwarded => [forwarded]
        | none, none => []

/-- C4 counterexample: the claim's parenthetical — no `PeerEvent::Signal`
is ever emitted with `sender == localPubKey` — fails: a remote event
(pubkey 2, not the local key 1) whose decrypted content parses as a
`PeerEvent::Signal { sender: 1, .. }` is forwarded verbatim, emitting a
`Signal` whose sender is the local public key. -/
theorem c4_counterexample :
    demo_forged_signal_event.pubkey ≠ demo_keys.public_key
    ∧ handle_relay_message demo_crypto demo_keys
        (RelayMessage.Event demo_forged_signal_event "sub")
      = [PeerEvent.Signal demo_keys.public_key "x"] := by
  constructor
  · decide
  · rfl

/-- C4 amended: the inbound dispatch behaves exactly as the claim's main
body states (self-echo dropped, kind-4 content decrypted or dropped,
`PeerRequest` tried first with `Signal` re-emitted as
`PeerEvent::Signal { sender = event.pubkey, data }` and its `receiver`
ignored and `KeepAlive` dropped, then `PeerEvent` forwarded verbatim,
anything else dropped) — without the parenthetical, since a forwarded
`PeerEvent::Signal` can carry `sender == localPubKey`. -/
theorem c4_amended (c : CryptoModel) (keys : Keys) (event : Event)
    (subscription_id : String) :
    handle_relay_message c keys (RelayMessage.Event event subscription_id) =
      inbound_event_dispatch_spec c keys event := by
  by_cases h1 : event.pubkey = keys.public_key
  · simp [handle_relay_message, inbound_event_dispatch_spec, h1]
  · by_cases h2 : event.kind = Kind.EncryptedDirectMessage
    · cases hd : c.decrypt keys.secret_key event.pubkey event.content with
      | none =>
          simp [handle_relay_message, inbound_event_dispatch_spec, h1, h2, hd]
      | some plain =>
          cases hr : c.parse_peer_request plain with
          | some req =>
              cases req with
              | Signal receiver data =>
                  simp [handle_relay_message, inbound_event_dispatch_spec,
                    h1, h2, hd, hr]
              | KeepAlive =>
                  simp [handle_relay_message, inbound_event_dispatch_spec,
                    h1, h2, hd, hr]
          | none =>
              cases he : c.parse_peer_event plain with
              | some forwarded =>
                  simp [handle_relay_message, inbound_event_dispatch_spec,
                    h1, h2, hd, hr, he]
              | none =>
                  simp [handle_relay_message, inbound_event_dispatch_spec,
                    h1, h2, hd, hr, he]
    · simp [handle_relay_message, inbound_event_dispatch_spec, h1, h2]

/-! ## C5 and C9: failure semantics of the signaling loop -/

/-- C5: a decryption or parse failure affects only that event (that select
iteration contributes nothing and the rest of the run is unchanged), an
`Ok` frame never changes the loop's result, `UnknownFormat` from the
signaller is skipped, and any other signaller error terminates the loop
with that error as its result, processing no further step. -/
theorem c5_failure_semantics (c : CryptoModel) (keys : Keys)
    (rest : List SigStep) :
    (∀ frame, handle_relay_frame c keys frame = [] →
        signaling_loop_body c keys (SigStep.message (Except.ok frame) :: rest)
          = signaling_loop_body c keys rest)
    ∧ (∀ frame,
        (signaling_loop_body c keys
            (SigStep.message (Except.ok frame) :: rest)).result
          = (signaling_loop_body c keys rest).result)
    ∧ signaling_loop_body c keys
        (SigStep.message (Except.error SignalingError.UnknownFormat) :: rest)
        = signaling_loop_body c keys rest
    ∧ (∀ err, err ≠ SignalingError.UnknownFormat →
        signaling_loop_body c keys (SigStep.message (Except.error err) :: rest)
          = ⟨[], [], Except.error err⟩) := by
  refine ⟨?_, ?_, ?_, ?_⟩
  · intro frame h
    simp [signaling_loop_body, h]
  · intro frame
    simp [signaling_loop_body]
  · simp [signaling_loop_body]
  · intro err h
    simp [signaling_loop_body, h]

/-- C5 witness: a fatal `ConnectionFailed` ends the loop with that error,
and a frame the relay-message parser rejects leaves the run unchanged. -/
theorem c5_witness :
    signaling_loop_body demo_crypto demo_keys
        [SigStep.message (Except.error SignalingError.ConnectionFailed)]
      = ⟨[], [], Except.error SignalingError.ConnectionFailed⟩
    ∧ signaling_loop_body demo_crypto demo_keys
        [SigStep.message (Except.ok "garbled")]
      = signaling_loop_body demo_crypto demo_keys [] := by
  constructor
  · exact (c5_failure_semantics demo_crypto demo_keys []).2.2.2
      SignalingError.ConnectionFailed (by decide)
  · exact (c5_failure_semantics demo_crypto demo_keys []).1 "garbled" (by decide)

/-- C9: a malformed inbound event — one the relay-message parser rejects,
one whose content fails NIP-04 decryption, or one whose plaintext parses
as neither `PeerRequest` nor `PeerEvent` — emits no `PeerEvent`, and an
`Ok` frame never changes the loop's result, so the loop continues. -/
theorem c9_hostile_traffic (c : CryptoModel) (keys : Keys)
    (rest : List SigStep) :
    (∀ frame, c.parse_relay_message frame = none →
        handle_relay_frame c keys frame = [])
    ∧ (∀ event subscription_id,
        c.decrypt keys.secret_key event.pubkey event.content = none →
        handle_relay_message c keys (RelayMessage.Event event subscription_id)
          = [])
    ∧ (∀ event subscription_id plain,
        c.decrypt keys.secret_key event.pubkey event.content = some plain →
        c.parse_peer_request plain = none →
        c.parse_peer_event plain = none →
        handle_relay_message c keys (RelayMessage.Event event subscription_id)
          = [])
    ∧ (∀ frame,
        (signaling_loop_body c keys
            (SigStep.message (Except.ok frame) :: rest)).result
          = (signaling_loop_body c keys rest).result) := by
  refine ⟨?_, ?_, ?_, ?_⟩
  · intro frame h
    simp [handle_relay_frame, h]
  · intro event subscription_id h
    by_cases h1 : event.pubkey = keys.public_key
    · simp [handle_relay_message, h1]
    · by_cases h2 : event.kind = Kind.EncryptedDirectMessage
      · simp [handle_relay_message, h1, h2, h]
      · simp [handle_relay_message, h1, h2]
  · intro event subscription_id plain h hr he
    by_cases h1 : event.pubkey = keys.public_key
    · simp [handle_relay_message, h1]
    · by_cases h2 : event.kind = Kind.EncryptedDirectMessage
      · simp [handle_relay_message, h1, h2, h, hr, he]
      · simp [handle_relay_message, h1, h2]
  · intro frame
    simp [signaling_loop_body]

/-- C9 witness: a rejected frame, an undecryptable event and a
garbage-plaintext event each emit nothing, and an `Ok` frame leaves the
loop's result untouched. -/
theorem c9_witness :
    handle_relay_frame demo_crypto demo_keys "garbled" = []
    ∧ handle_relay_message demo_crypto demo_keys
        (RelayMessage.Event
          { id := 0, pubkey := 2, created_at := 0,
            kind := Kind.EncryptedDirectMessage, tags := [],
            content := "undecryptable", sig := 0 } "sub") = []
    ∧ handle_relay_message demo_crypto demo_keys
        (RelayMessage.Event
          { id := 0, pubkey := 2, created_at := 0,
            kind := Kind.EncryptedDirectMessage, tags := [],
            content := "garbage-json", sig := 0 } "sub") = []
    ∧ (signaling_loop_body demo_crypto demo_keys
          [SigStep.message (Except.ok "garbled")]).result
        = (signaling_loop_body demo_crypto demo_keys []).result := by
  refine ⟨?_, ?_, ?_, ?_⟩
  · exact (c9_hostile_traffic demo_crypto demo_keys []).1 "garbled" (by decide)
  · exact (c9_hostile_traffic demo_crypto demo_keys []).2.1 _ "sub" (by decide)
  · exact (c9_hostile_traffic demo_crypto demo_keys []).2.2.1 _ "sub"
      "garbage-json" (by decide) (by decide) (by decide)
  · exact (c9_hostile_traffic demo_crypto demo_keys []).2.2.2 "garbled"

/-! ## Message loop (lines 262-374 of `mod.rs`) -/

/-- `HandshakeResult { peer_id, data_channels, metadata }` (lines
231-235); the data channels are opaque senders, so only their number is
represented, and the opaque metadata is dropped. -/
structure HandshakeResult where
  peer_id : PeerId
  data_channels : Nat
deriving DecidableEq

/-- The loop-local state of `message_loop` (lines 277-287):
`handshake_signals` is the key set of the `HashMap<PeerId, Sender>`,
`handshakes` and `peer_loops` are the peer ids of the futures in the two
`FuturesUnordered` sets, `data_channels` maps a peer to the length of
its `Vec` of channels, `id_used` records whether the one-shot identity
channel already holds a value, and `timer` is the armed keep-alive
delay (`None` when keep-alive is disabled, so the branch never fires). -/
structure MsgState where
  handshake_signals : List PeerId
  handshakes : List PeerId
  peer_loops : List PeerId
  data_channels : List (PeerId × Nat)
  id_used : Bool
  timer : Option Nat
deriving DecidableEq

/-- `HashMap::insert` on the key set: add the key if absent (an insert
over an existing key only replaces the value). -/
def insert_key (p : PeerId) (l : List PeerId) : List PeerId :=
  if p ∈ l then l else p :: l

/-- `HashMap::get` on the `data_channels` map. -/
def assoc_lookup (p : PeerId) : List (PeerId × Nat) → Option Nat
  | [] => none
  | (q, n) :: rest => if q = p then some n else assoc_lookup p rest

/-- `HashMap::insert` on the `data_channels` map. -/
def assoc_insert (p : PeerId) (n : Nat) : List (PeerId × Nat) →
    List (PeerId × Nat)
  | [] => [(p, n)]
  | (q, m) :: rest =>
      if q = p then (p, n) :: rest else (q, m) :: assoc_insert p n rest

/-- The firing of one branch of the message loop's `select!`
(lines 298-371): the keep-alive timer, a `PeerEvent` from the signaling
loop (`None` when the event channel is closed), the completion of an
in-flight handshake, the completion of a peer loop, or an outbound
application packet on channel `channel` (`None` when the outbound
queues closed). -/
inductive MsgInput
  | timeout
  | peer_event (event : Option PeerEvent)
  | handshake_done (result : HandshakeResult)
  | peer_loop_done (peer : PeerId)
  | packet_out (channel : Nat) (message : Option (PeerId × Packet))
deriving DecidableEq

/-- What the message loop emits: requests on `requests_sender`, the
identity on `id_tx`, peer-state reports on `peer_state_tx`, and packets
handed to a peer's data channel. -/
inductive MsgOutput
  | request (request : PeerRequest)
  | id_assigned (peer : PeerId)
  | peer_state (peer : PeerId) (state : PeerState)
  | data_send (peer : PeerId) (channel : Nat) (packet : Packet)
deriving DecidableEq

/-- The outcome of one loop iteration: continue with a new state, `break`
out of the loop, or abort on a failed `unwrap`/`expect`. -/
inductive StepResult
  | cont (state : MsgState) (out : List MsgOutput)
  | exit (out : List MsgOutput)
  | panicked (out : List MsgOutput)
deriving DecidableEq

/-- One iteration of the message loop's `select!` (lines 298-371).
Branches the real loop could not fire — a handshake or peer-loop
completing when none is in flight for that peer, the timer expiring
while unarmed — leave the state unchanged. -/
def message_loop_step (keep_alive_interval : Option Nat) (s : MsgState) :
    MsgInput → StepResult
  | MsgInput.timeout =>
      match s.timer with
      | some _ =>
          -- the KeepAlive is sent first; then `keep_alive_interval.unwrap()`
          -- rearms the timer (lines 300-303)
          match keep_alive_interval with
          | some interval =>
              StepResult.cont { s with timer := some interval }
                [MsgOutput.request PeerRequest.KeepAlive]
          | none => StepResult.panicked [MsgOutput.request PeerRequest.KeepAlive]
      | none => StepResult.cont s []
  | MsgInput.peer_event none => StepResult.cont s []
  | MsgInput.peer_event (some (PeerEvent.IdAssigned peer_uuid)) =>
      -- `id_tx.try_send(peer_uuid).unwrap()` on the one-shot identity
      -- channel (line 311)
      if s.id_used then StepResult.panicked []
      else StepResult.cont { s with id_used := true }
        [MsgOutput.id_assigned peer_uuid]
  | MsgInput.peer_event (some (PeerEvent.NewPeer peer_uuid)) =>
      StepResult.cont
        { s with
            handshake_signals := insert_key peer_uuid s.handshake_signals
            handshakes := peer_uuid :: s.handshakes } []
  | MsgInput.peer_event (some (PeerEvent.PeerLeft peer_uuid)) =>
      StepResult.cont s
        [MsgOutput.peer_state peer_uuid PeerState.Disconnected]
  | MsgInput.peer_event (some (PeerEvent.Signal sender _data)) =>
      -- `handshake_signals.entry(sender).or_insert_with(...)`: a new
      -- accept_handshake is pushed only when the key is absent; the
      -- forwarded signal itself goes to the handshake, not to an output
      if sender ∈ s.handshake_signals then StepResult.cont s []
      else
        StepResult.cont
          { s with
              handshake_signals := insert_key sender s.handshake_signals
              handshakes := sender :: s.handshakes } []
  | MsgInput.handshake_done result =>
      if result.peer_id ∈ s.handshakes then
        StepResult.cont
          { s with
              handshakes := s.handshakes.erase result.peer_id
              data_channels :=
                assoc_insert result.peer_id result.data_channels s.data_channels
              peer_loops := result.peer_id :: s.peer_loops }
          [MsgOutput.peer_state result.peer_id PeerState.Connected]
      else StepResult.cont s []
  | MsgInput.peer_loop_done peer =>
      if peer ∈ s.peer_loops then
        StepResult.cont { s with peer_loops := s.peer_loops.erase peer }
          [MsgOutput.peer_state peer PeerState.Disconnected]
      else StepResult.cont s []
  | MsgInput.packet_out channel (some (peer, packet)) =>
      -- `data_channels.get_mut(&peer).expect(..).get_mut(channel_index)
      --    .unwrap_or_else(|| panic!(..))` (lines 353-357)
      match assoc_lookup peer s.data_channels with
      | none => StepResult.panicked []
      | some n =>
          if channel < n then
            StepResult.cont s [MsgOutput.data_send peer channel packet]
          else StepResult.panicked []
  | MsgInput.packet_out _ none => StepResult.exit []

/-- How a run of the message loop ended: inputs exhausted (the loop is
still running), a clean `break`, or an aborting panic. -/
inductive EndKind
  | exhausted
  | exited
  | panicked
deriving DecidableEq

/-- What a run of the message loop produced. -/
structure MsgResult where
  outputs : List MsgOutput
  final : MsgState
  ended : EndKind
deriving DecidableEq

/-- A run of `message_loop` over a sequence of select outcomes. -/
def message_loop (keep_alive_interval : Option Nat) (s : MsgState) :
    List MsgInput → MsgResult
  | [] => ⟨[], s, EndKind.exhausted⟩
  | input :: rest =>
      match message_loop_step keep_alive_interval s input with
      | StepResult.cont s2 out =>
          let tail := message_loop keep_alive_interval s2 rest
          ⟨out ++ tail.outputs, tail.final, tail.ended⟩
      | StepResult.exit out => ⟨out, s, EndKind.exited⟩
      | StepResult.panicked out => ⟨out, s, EndKind.panicked⟩

/-- The state the message loop starts from: empty maps and sets, the
identity one-shot empty, the timer armed iff keep-alive is configured
(lines 277-287). -/
def init_state (keep_alive_interval : Option Nat) : MsgState :=
  ⟨[], [], [], [], false, keep_alive_interval⟩

/-! ### Counting helpers over runs -/

/-- Is this input a `NewPeer(p)` event? -/
def is_new_peer (p : PeerId) : MsgInput → Bool
  | MsgInput.peer_event (some (PeerEvent.NewPeer q)) => q == p
  | _ => false

/-- Is this input a `Signal` event whose sender is `p`? -/
def is_signal_from (p : PeerId) : MsgInput → Bool
  | MsgInput.peer_event (some (PeerEvent.Signal q _)) => q == p
  | _ => false

/-- Is this input a `PeerLeft(p)` event? -/
def is_peer_left (p : PeerId) : MsgInput → Bool
  | MsgInput.peer_event (some (PeerEvent.PeerLeft q)) => q == p
  | _ => false

/-- Is this input the completion of `p`'s peer loop? -/
def is_peer_loop_done (p : PeerId) : MsgInput → Bool
  | MsgInput.peer_loop_done q => q == p
  | _ => false

def count_new_peer (p : PeerId) (l : List MsgInput) : Nat :=
  l.countP (is_new_peer p)

def count_signal_from (p : PeerId) (l : List MsgInput) : Nat :=
  l.countP (is_signal_from p)

def count_peer_left (p : PeerId) (l : List MsgInput) : Nat :=
  l.countP (is_peer_left p)

def count_peer_loop_done (p : PeerId) (l : List MsgInput) : Nat :=
  l.countP (is_peer_loop_done p)

/-! ## C1 and C2: peer-state reports -/

/-- A run in which the loop receives a `PeerLeft(1)`, then a `Signal` from
the unknown peer 1 (starting an accept handshake), then a `NewPeer(1)`
(`handshake_signals.insert` replaces the entry and a second, offer
handshake is pushed unconditionally), and then both handshakes complete. -/
def c1_inputs : List MsgInput :=
  [MsgInput.peer_event (some (PeerEvent.PeerLeft 1)),
   MsgInput.peer_event (some (PeerEvent.Signal 1 "offer")),
   MsgInput.peer_event (some (PeerEvent.NewPeer 1)),
   MsgInput.handshake_done ⟨1, 1⟩,
   MsgInput.handshake_done ⟨1, 1⟩]

/-- C1 counterexample: on `c1_inputs` the loop emits `(1, Disconnected)`
before any `(1, Connected)`, and then `(1, Connected)` twice — once per
completed handshake — so `(p, Connected)` is not emitted at most once,
and a `NewPeer(p)` arriving after a `Signal` from `p` does lead to two
handshakes for `p`, each emitting `Connected`. -/
theorem c1_counterexample :
    (message_loop none (init_state none) c1_inputs).outputs =
      [MsgOutput.peer_state 1 PeerState.Disconnected,
       MsgOutput.peer_state 1 PeerState.Connected,
       MsgOutput.peer_state 1 PeerState.Connected]
    ∧ (message_loop none (init_state none) c1_inputs).outputs.count
        (MsgOutput.peer_state 1 PeerState.Connected) = 2 := by
  constructor
  · rfl
  · rfl

/-- Each `(p, Connected)` comes from one completed handshake for `p`, and
a handshake for `p` is started only by a `NewPeer(p)` event or by a
`Signal` from `p` when `p` has no `handshake_signals` entry. -/
theorem connected_count_le (kai : Option Nat) (p : PeerId) :
    ∀ (inputs : List MsgInput) (s : MsgState),
      (message_loop kai s inputs).outputs.count
          (MsgOutput.peer_state p PeerState.Connected) ≤
        count_new_peer p inputs + count_signal_from p inputs +
          s.handshakes.count p := by
  intro inputs
  induction inputs with
  | nil =>
      intro s
      simp [message_loop, count_new_peer, count_signal_from]
  | cons input rest ih =>
      intro s
      cases input with
      | timeout =>
          cases ht : s.timer with
          | none =>
              have h := ih s
              simp only [message_loop, message_loop_step, ht, count_new_peer,
                count_signal_from, is_new_peer, is_signal_from,
                List.countP_cons] at h ⊢
              simpa using h
          | some t =>
              cases kai with
              | none =>
                  simp [message_loop, message_loop_step, ht, count_new_peer,
                    count_signal_from, is_new_peer, is_signal_from,
                    List.countP_cons]
              | some interval =>
                  have h := ih { s with timer := some interval }
                  simp only [message_loop, message_loop_step, ht,
                    count_new_peer, count_signal_from, is_new_peer,
                    is_signal_from, List.countP_cons] at h ⊢
                  simp only [List.count_append, List.count_cons,
                    List.count_nil] at h ⊢
                  simp at h ⊢
                  omega
      | peer_event oe =>
          cases oe with
          | none =>
              have h := ih s
              simp only [message_loop, message_loop_step, count_new_peer,
                count_signal_from, is_new_peer, is_signal_from,
                List.countP_cons] at h ⊢
              simpa using h
          | some ev =>
              cases ev with
              | IdAssigned q =>
                  by_cases hid : s.id_used
                  · simp [message_loop, message_loop_step, hid, count_new_peer,
                      count_signal_from, is_new_peer, is_signal_from,
                      List.countP_cons]
                  · have h := ih { s with id_used := true }
                    simp only [message_loop, message_loop_step, hid,
                      if_neg, if_pos, count_new_peer, count_signal_from,
                      is_new_peer, is_signal_from, List.countP_cons] at h ⊢
                    simp at h ⊢
                    omega
              | NewPeer q =>
                  have h := ih
                    { s with
                        handshake_signals := insert_key q s.handshake_signals
                        handshakes := q :: s.handshakes }
                  by_cases hqp : q = p
                  · subst hqp
                    simp only [message_loop, message_loop_step,
                      count_new_peer, count_signal_from, is_new_peer,
                      is_signal_from, List.countP_cons] at h ⊢
                    simp [List.count_cons_self] at h ⊢
                    omega
                  · simp only [message_loop, message_loop_step,
                      count_new_peer, count_signal_from, is_new_peer,
                      is_signal_from, List.countP_cons] at h ⊢
                    simp [List.count_cons_of_ne (fun hpq => hqp hpq.symm),
                      hqp] at h ⊢
                    omega
              | PeerLeft q =>
                  have h := ih s
                  simp only [message_loop, message_loop_step, count_new_peer,
                    count_signal_from, is_new_peer, is_signal_from,
                    List.countP_cons] at h ⊢
                  simp at h ⊢
                  omega
              | Signal q d =>
                  by_cases hmem : q ∈ s.handshake_signals
                  · have h := ih s
                    simp only [message_loop, message_loop_step, hmem,
                      count_new_peer, count_signal_from, is_new_peer,
                      is_signal_from, List.countP_cons] at h ⊢
                    simp at h ⊢
                    omega
                  · have h := ih
                      { s with
                          handshake_signals := insert_key q s.handshake_signals
                          handshakes := q :: s.handshakes }
                    by_cases hqp : q = p
                    · subst hqp
                      simp only [message_loop, message_loop_step, hmem,
                        count_new_peer, count_signal_from, is_new_peer,
                        is_signal_from, List.countP_cons] at h ⊢
                      simp [List.count_cons_self] at h ⊢
                      omega
                    · simp only [message_loop, message_loop_step, hmem,
                        count_new_peer, count_signal_from, is_new_peer,
                        is_signal_from, List.countP_cons] at h ⊢
                      simp [List.count_cons_of_ne (fun hpq => hqp hpq.symm),
                        hqp] at h ⊢
                      omega
      | handshake_done result =>
          by_cases hin : result.peer_id ∈ s.handshakes
          · have h := ih
              { s with
                  handshakes := s.handshakes.erase result.peer_id
                  data_channels :=
                    assoc_insert result.peer_id result.data_channels
                      s.data_channels
                  peer_loops := result.peer_id :: s.peer_loops }
            by_cases hqp : result.peer_id = p
            · have hpos : 0 < s.handshakes.count p := by
                rw [List.count_pos_iff]
                exact hqp ▸ hin
              subst hqp
              simp only [message_loop, message_loop_step, hin, if_pos,
                count_new_peer, count_signal_from, is_new_peer,
                is_signal_from, List.countP_cons] at h ⊢
              simp [List.count_erase_self] at h ⊢
              omega
            · simp only [message_loop, message_loop_step, hin, if_pos,
                count_new_peer, count_signal_from, is_new_peer,
                is_signal_from, List.countP_cons] at h ⊢
              simp [List.count_cons,
                List.count_erase_of_ne (fun hpq => hqp hpq.symm),
                hqp] at h ⊢
              omega
          · have h := ih s
            simp only [message_loop, message_loop_step, hin, if_neg,
              count_new_peer, count_signal_from, is_new_peer,
              is_signal_from, List.countP_cons] at h ⊢
            simp at h ⊢
            omega
      | peer_loop_done q =>
          by_cases hin : q ∈ s.peer_loops
          · have h := ih { s with peer_loops := s.peer_loops.erase q }
            simp only [message_loop, message_loop_step, hin, if_pos,
              count_new_peer, count_signal_from, is_new_peer,
              is_signal_from, List.countP_cons] at h ⊢
            simp at h ⊢
            omega
          · have h := ih s
            simp only [message_loop, message_loop_step, hin, if_neg,
              count_new_peer, count_signal_from, is_new_peer,
              is_signal_from, List.countP_cons] at h ⊢
            simp at h ⊢
            omega
      | packet_out channel msg =>
          cases msg with
          | none =>
              simp [message_loop, message_loop_step, count_new_peer,
                count_signal_from, is_new_peer, is_signal_from,
                List.countP_cons]
          | some pair =>
              obtain ⟨peer, packet⟩ := pair
              cases hl : assoc_lookup peer s.data_channels with
              | none =>
                  simp [message_loop, message_loop_step, hl, count_new_peer,
                    count_signal_from, is_new_peer, is_signal_from,
                    List.countP_cons]
              | some n =>
                  by_cases hch : channel < n
                  · have h := ih s
                    simp only [message_loop, message_loop_step, hl, hch,
                      if_pos, count_new_peer, count_signal_from, is_new_peer,
                      is_signal_from, List.countP_cons] at h ⊢
                    simp at h ⊢
                    omega
                  · simp [message_loop, message_loop_step, hl, hch,
                      count_new_peer, count_signal_from, is_new_peer,
                      is_signal_from, List.countP_cons]

/-- C1 amended: `(p, Connected)` is emitted at most once per handshake
started for `p` — at most the number of `NewPeer(p)` events plus the
number of `Signal` events from `p` in the run — and a `Signal` from `p`
arriving while `p` already has a `handshake_signals` entry starts no
second handshake; but a `NewPeer(p)` always starts one, so `NewPeer(p)`
after a `Signal` from `p` can emit `Connected` twice, and `PeerLeft(p)`
emits `(p, Disconnected)` even before any `(p, Connected)`. -/
theorem c1_amended (kai : Option Nat) (inputs : List MsgInput) (p : PeerId)
    (s : MsgState) (d : PeerSignal) :
    (message_loop kai (init_state kai) inputs).outputs.count
        (MsgOutput.peer_state p PeerState.Connected) ≤
      count_new_peer p inputs + count_signal_from p inputs
    ∧ (p ∈ s.handshake_signals →
        message_loop_step kai s
            (MsgInput.peer_event (some (PeerEvent.Signal p d)))
          = StepResult.cont s []) := by
  constructor
  · have h := connected_count_le kai p inputs (init_state kai)
    simpa [init_state] using h
  · intro hmem
    simp [message_loop_step, hmem]

/-- A state with a `handshake_signals` entry and two data channels for
peer 1, used to instantiate theorems with hypotheses. -/
def demo_msg_state : MsgState := ⟨[1], [], [], [(1, 2)], false, none⟩

/-- C1 amended, witness: the bound evaluated on `c1_inputs`, and a
`Signal` from peer 1 in a state that already has a handshake entry for 1
leaving the state unchanged. -/
theorem c1_amended_witness :
    (message_loop none (init_state none) c1_inputs).outputs.count
        (MsgOutput.peer_state 1 PeerState.Connected) ≤
      count_new_peer 1 c1_inputs + count_signal_from 1 c1_inputs
    ∧ message_loop_step none demo_msg_state
        (MsgInput.peer_event (some (PeerEvent.Signal 1 "x")))
        = StepResult.cont demo_msg_state [] := by
  exact ⟨(c1_amended none c1_inputs 1 demo_msg_state "x").1,
    (c1_amended none c1_inputs 1 demo_msg_state "x").2 (by decide)⟩

/-- A run in which peer 1 connects and then both disconnect causes fire:
its peer loop ends and a `PeerLeft(1)` arrives. -/
def c2_inputs : List MsgInput :=
  [MsgInput.peer_event (some (PeerEvent.NewPeer 1)),
   MsgInput.handshake_done ⟨1, 1⟩,
   MsgInput.peer_event (some (PeerEvent.PeerLeft 1)),
   MsgInput.peer_loop_done 1]

/-- C2 counterexample: after `(1, Connected)` the loop emits
`(1, Disconnected)` twice — once for the `PeerLeft(1)` event and once for
the peer loop completing — not exactly once as the claim states. -/
theorem c2_counterexample :
    (message_loop none (init_state none) c2_inputs).outputs =
      [MsgOutput.peer_state 1 PeerState.Connected,
       MsgOutput.peer_state 1 PeerState.Disconnected,
       MsgOutput.peer_state 1 PeerState.Disconnected]
    ∧ (message_loop none (init_state none) c2_inputs).outputs.count
        (MsgOutput.peer_state 1 PeerState.Disconnected) = 2 := ⟨rfl, rfl⟩

/-- `(p, Disconnected)` is emitted only on a `PeerLeft(p)` event or the
completion of `p`'s peer loop. -/
theorem disconnected_count_le (kai : Option Nat) (p : PeerId) :
    ∀ (inputs : List MsgInput) (s : MsgState),
      (message_loop kai s inputs).outputs.count
          (MsgOutput.peer_state p PeerState.Disconnected) ≤
        count_peer_left p inputs + count_peer_loop_done p inputs := by
  intro inputs
  induction inputs with
  | nil =>
      intro s
      simp [message_loop, count_peer_left, count_peer_loop_done]
  | cons input rest ih =>
      intro s
      cases input with
      | timeout =>
          cases ht : s.timer with
          | none =>
              have h := ih s
              simp only [message_loop, message_loop_step, ht, count_peer_left,
                count_peer_loop_done, is_peer_left, is_peer_loop_done,
                List.countP_cons] at h ⊢
              simpa using h
          | some t =>
              cases kai with
              | none =>
                  simp [message_loop, message_loop_step, ht, count_peer_left,
                    count_peer_loop_done, is_peer_left, is_peer_loop_done,
                    List.countP_cons]
              | some interval =>
                  have h := ih { s with timer := some interval }
                  simp only [message_loop, message_loop_step, ht,
                    count_peer_left, count_peer_loop_done, is_peer_left,
                    is_peer_loop_done, List.countP_cons] at h ⊢
                  simp at h ⊢
                  omega
      | peer_event oe =>
          cases oe with
          | none =>
              have h := ih s
              simp only [message_loop, message_loop_step, count_peer_left,
                count_peer_loop_done, is_peer_left, is_peer_loop_done,
                List.countP_cons] at h ⊢
              simpa using h
          | some ev =>
              cases ev with
              | IdAssigned q =>
                  by_cases hid : s.id_used
                  · simp [message_loop, message_loop_step, hid,
                      count_peer_left, count_peer_loop_done, is_peer_left,
                      is_peer_loop_done, List.countP_cons]
                  · have h := ih { s with id_used := true }
                    simp only [message_loop, message_loop_step, hid, if_neg,
                      count_peer_left, count_peer_loop_done, is_peer_left,
                      is_peer_loop_done, List.countP_cons] at h ⊢
                    simp at h ⊢
                    omega
              | NewPeer q =>
                  have h := ih
                    { s with
                        handshake_signals := insert_key q s.handshake_signals
                        handshakes := q :: s.handshakes }
                  simp only [message_loop, message_loop_step, count_peer_left,
                    count_peer_loop_done, is_peer_left, is_peer_loop_done,
                    List.countP_cons] at h ⊢
                  simp at h ⊢
                  omega
              | PeerLeft q =>
                  have h := ih s
                  by_cases hqp : q = p
                  · subst hqp
                    simp only [message_loop, message_loop_step,
                      count_peer_left, count_peer_loop_done, is_peer_left,
                      is_peer_loop_done, List.countP_cons] at h ⊢
                    simp [List.count_cons] at h ⊢
                    omega
                  · simp only [message_loop, message_loop_step,
                      count_peer_left, count_peer_loop_done, is_peer_left,
                      is_peer_loop_done, List.countP_cons] at h ⊢
                    simp [List.count_cons, hqp] at h ⊢
                    omega
              | Signal q d =>
                  by_cases hmem : q ∈ s.handshake_signals
                  · have h := ih s
                    simp only [message_loop, message_loop_step, hmem,
                      count_peer_left, count_peer_loop_done, is_peer_left,
                      is_peer_loop_done, List.countP_cons] at h ⊢
                    simp at h ⊢
                    omega
                  · have h := ih
                      { s with
                          handshake_signals := insert_key q s.handshake_signals
                          handshakes := q :: s.handshakes }
                    simp only [message_loop, message_loop_step, hmem,
                      count_peer_left, count_peer_loop_done, is_peer_left,
                      is_peer_loop_done, List.countP_cons] at h ⊢
                    simp at h ⊢
                    omega
      | handshake_done result =>
          by_cases hin : result.peer_id ∈ s.handshakes
          · have h := ih
              { s with
                  handshakes := s.handshakes.erase result.peer_id
                  data_channels :=
                    assoc_insert result.peer_id result.data_channels
                      s.data_channels
                  peer_loops := result.peer_id :: s.peer_loops }
            simp only [message_loop, message_loop_step, hin, if_pos,
              count_peer_left, count_peer_loop_done, is_peer_left,
              is_peer_loop_done, List.countP_cons] at h ⊢
            simp [List.count_cons] at h ⊢
            omega
          · have h := ih s
            simp only [message_loop, message_loop_step, hin, if_neg,
              count_peer_left, count_peer_loop_done, is_peer_left,
              is_peer_loop_done, List.countP_cons] at h ⊢
            simp at h ⊢
            omega
      | peer_loop_done q =>
          by_cases hin : q ∈ s.peer_loops
          · have h := ih { s with peer_loops := s.peer_loops.erase q }
            by_cases hqp : q = p
            · subst hqp
              simp only [message_loop, message_loop_step, hin, if_pos,
                count_peer_left, count_peer_loop_done, is_peer_left,
                is_peer_loop_done, List.countP_cons] at h ⊢
              simp [List.count_cons] at h ⊢
              omega
            · simp only [message_loop, message_loop_step, hin, if_pos,
                count_peer_left, count_peer_loop_done, is_peer_left,
                is_peer_loop_done, List.countP_cons] at h ⊢
              simp [List.count_cons, hqp] at h ⊢
              omega
          · have h := ih s
            simp only [message_loop, message_loop_step, hin, if_neg,
              count_peer_left, count_peer_loop_done, is_peer_left,
              is_peer_loop_done, List.countP_cons] at h ⊢
            simp at h ⊢
            omega
      | packet_out channel msg =>
          cases msg with
          | none =>
              simp [message_loop, message_loop_step, count_peer_left,
                count_peer_loop_done, is_peer_left, is_peer_loop_done,
                List.countP_cons]
          | some pair =>
              obtain ⟨peer, packet⟩ := pair
              cases hl : assoc_lookup peer s.data_channels with
              | none =>
                  simp [message_loop, message_loop_step, hl, count_peer_left,
                    count_peer_loop_done, is_peer_left, is_peer_loop_done,
                    List.countP_cons]
              | some n =>
                  by_cases hch : channel < n
                  · have h := ih s
                    simp only [message_loop, message_loop_step, hl, hch,
                      if_pos, count_peer_left, count_peer_loop_done,
                      is_peer_left, is_peer_loop_done,
                      List.countP_cons] at h ⊢
                    simp at h ⊢
                    omega
                  · simp [message_loop, message_loop_step, hl, hch,
                      count_peer_left, count_peer_loop_done, is_peer_left,
                      is_peer_loop_done, List.countP_cons]

/-- In a run the loop survives (no break, no panic), every `PeerLeft(p)`
event emits its `(p, Disconnected)`. -/
theorem peer_left_le_disconnected (kai : Option Nat) (p : PeerId) :
    ∀ (inputs : List MsgInput) (s : MsgState),
      (message_loop kai s inputs).ended = EndKind.exhausted →
      count_peer_left p inputs ≤
        (message_loop kai s inputs).outputs.count
          (MsgOutput.peer_state p PeerState.Disconnected) := by
  intro inputs
  induction inputs with
  | nil =>
      intro s _
      simp [count_peer_left]
  | cons input rest ih =>
      intro s
      cases input with
      | timeout =>
          cases ht : s.timer with
          | none =>
              simp only [message_loop, message_loop_step, ht, count_peer_left,
                is_peer_left, List.countP_cons]
              intro hend
              have h := ih s hend
              simp only [count_peer_left] at h
              simpa using h
          | some t =>
              cases kai with
              | none =>
                  simp [message_loop, message_loop_step, ht]
              | some interval =>
                  simp only [message_loop, message_loop_step, ht,
                    count_peer_left, is_peer_left, List.countP_cons]
                  intro hend
                  have h := ih { s with timer := some interval } hend
                  simp only [count_peer_left] at h
                  simp at h ⊢
                  omega
      | peer_event oe =>
          cases oe with
          | none =>
              simp only [message_loop, message_loop_step, count_peer_left,
                is_peer_left, List.countP_cons]
              intro hend
              have h := ih s hend
              simp only [count_peer_left] at h
              simpa using h
          | some ev =>
              cases ev with
              | IdAssigned q =>
                  by_cases hid : s.id_used
                  · simp [message_loop, message_loop_step, hid]
                  · simp only [message_loop, message_loop_step, hid, if_neg,
                      count_peer_left, is_peer_left, List.countP_cons]
                    intro hend
                    have h := ih { s with id_used := true } hend
                    simp only [count_peer_left] at h
                    simp at h ⊢
                    omega
              | NewPeer q =>
                  simp only [message_loop, message_loop_step, count_peer_left,
                    is_peer_left, List.countP_cons]
                  intro hend
                  have h := ih
                    { s with
                        handshake_signals := insert_key q s.handshake_signals
                        handshakes := q :: s.handshakes } hend
                  simp only [count_peer_left] at h
                  simp at h ⊢
                  omega
              | PeerLeft q =>
                  simp only [message_loop, message_loop_step, count_peer_left,
                    is_peer_left, List.countP_cons]
                  intro hend
                  have h := ih s hend
                  simp only [count_peer_left] at h
                  by_cases hqp : q = p
                  · subst hqp
                    simp [List.count_cons] at h ⊢
                    omega
                  · simp [List.count_cons, hqp] at h ⊢
                    omega
              | Signal q d =>
                  by_cases hmem : q ∈ s.handshake_signals
                  · simp only [message_loop, message_loop_step, hmem, if_pos,
                      count_peer_left, is_peer_left, List.countP_cons]
                    intro hend
                    have h := ih s hend
                    simp only [count_peer_left] at h
                    simpa using h
                  · simp only [message_loop, message_loop_step, hmem, if_neg,
                      count_peer_left, is_peer_left, List.countP_cons]
                    intro hend
                    have h := ih
                      { s with
                          handshake_signals := insert_key q s.handshake_signals
                          handshakes := q :: s.handshakes } hend
                    simp only [count_peer_left] at h
                    simp at h ⊢
                    omega
      | handshake_done result =>
          by_cases hin : result.peer_id ∈ s.handshakes
          · simp only [message_loop, message_loop_step, hin, if_pos,
              count_peer_left, is_peer_left, List.countP_cons]
            intro hend
            have h := ih
              { s with
                  handshakes := s.handshakes.erase result.peer_id
                  data_channels :=
                    assoc_insert result.peer_id result.data_channels
                      s.data_channels
                  peer_loops := result.peer_id :: s.peer_loops } hend
            simp only [count_peer_left] at h
            simp [List.count_cons] at h ⊢
            omega
          · simp only [message_loop, message_loop_step, hin, if_neg,
              count_peer_left, is_peer_left, List.countP_cons]
            intro hend
            have h := ih s hend
            simp only [count_peer_left] at h
            simpa using h
      | peer_loop_done q =>
          by_cases hin : q ∈ s.peer_loops
          · simp only [message_loop, message_loop_step, hin, if_pos,
              count_peer_left, is_peer_left, List.countP_cons]
            intro hend
            have h := ih { s with peer_loops := s.peer_loops.erase q } hend
            simp only [count_peer_left] at h
            simp [List.count_cons] at h ⊢
            omega
          · simp only [message_loop, message_loop_step, hin, if_neg,
              count_peer_left, is_peer_left, List.countP_cons]
            intro hend
            have h := ih s hend
            simp only [count_peer_left] at h
            simp at h ⊢
            omega
      | packet_out channel msg =>
          cases msg with
          | none =>
              simp [message_loop, message_loop_step]
          | some pair =>
              obtain ⟨peer, packet⟩ := pair
              cases hl : assoc_lookup peer s.data_channels with
              | none =>
                  simp [message_loop, message_loop_step, hl]
              | some n =>
                  by_cases hch : channel < n
                  · simp only [message_loop, message_loop_step, hl, hch,
                      if_pos, count_peer_left, is_peer_left, List.countP_cons]
                    intro hend
                    have h := ih s hend
                    simp only [count_peer_left] at h
                    simp at h ⊢
                    omega
                  · simp [message_loop, message_loop_step, hl, hch]

/-- C2 amended: after `(p, Connected)`, a `(p, Disconnected)` is emitted
once per cause, not once in total: each `PeerLeft(p)` event and each
completion of `p`'s peer loop emits one, so a run the loop survives
emits at least one per `PeerLeft(p)` and at most their combined number —
when both causes occur in one run, two `(p, Disconnected)` are emitted. -/
theorem c2_amended (kai : Option Nat) (inputs : List MsgInput) (p : PeerId) :
    (message_loop kai (init_state kai) inputs).outputs.count
        (MsgOutput.peer_state p PeerState.Disconnected) ≤
      count_peer_left p inputs + count_peer_loop_done p inputs
    ∧ ((message_loop kai (init_state kai) inputs).ended = EndKind.exhausted →
        count_peer_left p inputs ≤
          (message_loop kai (init_state kai) inputs).outputs.count
            (MsgOutput.peer_state p PeerState.Disconnected)) :=
  ⟨disconnected_count_le kai p inputs (init_state kai),
   peer_left_le_disconnected kai p inputs (init_state kai)⟩

/-- C2 amended, witness: both bounds evaluated on the two-cause run
`c2_inputs`, which the loop survives. -/
theorem c2_amended_witness :
    (message_loop none (init_state none) c2_inputs).outputs.count
        (MsgOutput.peer_state 1 PeerState.Disconnected) ≤
      count_peer_left 1 c2_inputs + count_peer_loop_done 1 c2_inputs
    ∧ count_peer_left 1 c2_inputs ≤
        (message_loop none (init_state none) c2_inputs).outputs.count
          (MsgOutput.peer_state 1 PeerState.Disconnected) :=
  ⟨(c2_amended none c2_inputs 1).1, (c2_amended none c2_inputs 1).2 (by decide)⟩

/-! ## C7: keep-alive -/

/-- Only the timer branch ever outputs a request, and it cannot fire
while the timer is unarmed, which every step preserves. -/
theorem no_keep_alive_of_timer_none (kai : Option Nat) :
    ∀ (inputs : List MsgInput) (s : MsgState), s.timer = none →
      (message_loop kai s inputs).outputs.count
        (MsgOutput.request PeerRequest.KeepAlive) = 0 := by
  intro inputs
  induction inputs with
  | nil =>
      intro s _
      simp [message_loop]
  | cons input rest ih =>
      intro s ht
      cases input with
      | timeout =>
          simp only [message_loop, message_loop_step, ht]
          simpa using ih s ht
      | peer_event oe =>
          cases oe with
          | none =>
              simp only [message_loop, message_loop_step]
              simpa using ih s ht
          | some ev =>
              cases ev with
              | IdAssigned q =>
                  by_cases hid : s.id_used
                  · simp [message_loop, message_loop_step, hid]
                  · simp only [message_loop, message_loop_step, hid, if_neg]
                    have h := ih { s with id_used := true } ht
                    simp at h ⊢
                    omega
              | NewPeer q =>
                  simp only [message_loop, message_loop_step]
                  have h := ih
                    { s with
                        handshake_signals := insert_key q s.handshake_signals
                        handshakes := q :: s.handshakes } ht
                  simpa using h
              | PeerLeft q =>
                  simp only [message_loop, message_loop_step]
                  have h := ih s ht
                  simp at h ⊢
                  omega
              | Signal q d =>
                  by_cases hmem : q ∈ s.handshake_signals
                  · simp only [message_loop, message_loop_step, hmem, if_pos]
                    simpa using ih s ht
                  · simp only [message_loop, message_loop_step, hmem, if_neg]
                    have h := ih
                      { s with
                          handshake_signals := insert_key q s.handshake_signals
                          handshakes := q :: s.handshakes } ht
                    simpa using h
      | handshake_done result =>
          by_cases hin : result.peer_id ∈ s.handshakes
          · simp only [message_loop, message_loop_step, hin, if_pos]
            have h := ih
              { s with
                  handshakes := s.handshakes.erase result.peer_id
                  data_channels :=
                    assoc_insert result.peer_id result.data_channels
                      s.data_channels
                  peer_loops := result.peer_id :: s.peer_loops } ht
            simp at h ⊢
            omega
          · simp only [message_loop, message_loop_step, hin, if_neg]
            simpa using ih s ht
      | peer_loop_done q =>
          by_cases hin : q ∈ s.peer_loops
          · simp only [message_loop, message_loop_step, hin, if_pos]
            have h := ih { s with peer_loops := s.peer_loops.erase q } ht
            simp at h ⊢
            omega
          · simp only [message_loop, message_loop_step, hin, if_neg]
            simpa using ih s ht
      | packet_out channel msg =>
          cases msg with
          | none =>
              simp [message_loop, message_loop_step]
          | some pair =>
              obtain ⟨peer, packet⟩ := pair
              cases hl : assoc_lookup peer s.data_channels with
              | none =>
                  simp [message_loop, message_loop_step, hl]
              | some n =>
                  by_cases hch : channel < n
                  · simp only [message_loop, message_loop_step, hl, hch,
                      if_pos]
                    have h := ih s ht
                    simp at h ⊢
                    omega
                  · simp [message_loop, message_loop_step, hl, hch]

/-- C7: a `PeerRequest::KeepAlive` on the request channel sends no relay
frame; each firing of an armed keep-alive timer enqueues exactly one
`KeepAlive` on the request channel and rearms the timer for
`keep_alive_interval`; and with `keep_alive_interval = None` the timer
starts unarmed, so no run ever enqueues a `KeepAlive`. -/
theorem c7_keep_alive (c : CryptoModel) (keys : Keys) (now : Nat)
    (rest : List SigStep) (s : MsgState) (interval t : Nat)
    (inputs : List MsgInput) :
    handle_request c keys now (some PeerRequest.KeepAlive) = []
    ∧ (signaling_loop_body c keys
          (SigStep.request (some PeerRequest.KeepAlive) now :: rest)).sent
        = (signaling_loop_body c keys rest).sent
    ∧ (s.timer = some t →
        message_loop_step (some interval) s MsgInput.timeout =
          StepResult.cont { s with timer := some interval }
            [MsgOutput.request PeerRequest.KeepAlive])
    ∧ (message_loop none (init_state none) inputs).outputs.count
        (MsgOutput.request PeerRequest.KeepAlive) = 0 := by
  refine ⟨rfl, ?_, ?_, ?_⟩
  · simp [signaling_loop_body, handle_request]
  · intro ht
    simp [message_loop_step, ht]
  · exact no_keep_alive_of_timer_none none inputs (init_state none) rfl

/-- A state whose keep-alive timer is armed. -/
def demo_armed_state : MsgState := ⟨[], [], [], [], false, some 9⟩

/-- C7 witness: a `KeepAlive` request step sends nothing, and an armed
timer firing under `keep_alive_interval = Some 4` enqueues one
`KeepAlive` and rearms the timer to 4. -/
theorem c7_witness :
    (signaling_loop_body demo_crypto demo_keys
        [SigStep.request (some PeerRequest.KeepAlive) 7]).sent
      = (signaling_loop_body demo_crypto demo_keys []).sent
    ∧ message_loop_step (some 4) demo_armed_state MsgInput.timeout =
        StepResult.cont { demo_armed_state with timer := some 4 }
          [MsgOutput.request PeerRequest.KeepAlive] :=
  ⟨(c7_keep_alive demo_crypto demo_keys 7 [] demo_armed_state 4 9 []).2.1,
   (c7_keep_alive demo_crypto demo_keys 7 [] demo_armed_state 4 9 []).2.2.1 rfl⟩

/-! ## C8: outbound packet routing -/

/-- C8: an outbound application packet `(peer, packet)` on per-channel
receiver `channel` is handed to `data_channels[peer][channel]`; if the
peer has no `data_channels` entry, or the entry has no channel at that
index, the loop panics rather than dropping the packet. -/
theorem c8_packet_routing (kai : Option Nat) (s : MsgState) (channel : Nat)
    (peer : PeerId) (packet : Packet) :
    (∀ n, assoc_lookup peer s.data_channels = some n → channel < n →
        message_loop_step kai s
            (MsgInput.packet_out channel (some (peer, packet)))
          = StepResult.cont s [MsgOutput.data_send peer channel packet])
    ∧ (assoc_lookup peer s.data_channels = none →
        message_loop_step kai s
            (MsgInput.packet_out channel (some (peer, packet)))
          = StepResult.panicked [])
    ∧ (∀ n, assoc_lookup peer s.data_channels = some n → n ≤ channel →
        message_loop_step kai s
            (MsgInput.packet_out channel (some (peer, packet)))
          = StepResult.panicked []) := by
  refine ⟨?_, ?_, ?_⟩
  · intro n hl hc
    simp [message_loop_step, hl, hc]
  · intro hl
    simp [message_loop_step, hl]
  · intro n hl hc
    simp [message_loop_step, hl, Nat.not_lt.mpr hc]

/-- C8 witness: with two channels installed for peer 1, a packet on
channel 0 is delivered, a packet for the unknown peer 7 panics, and a
packet on the out-of-range channel 5 panics. -/
theorem c8_witness :
    message_loop_step none demo_msg_state
        (MsgInput.packet_out 0 (some (1, [42])))
      = StepResult.cont demo_msg_state [MsgOutput.data_send 1 0 [42]]
    ∧ message_loop_step none demo_msg_state
        (MsgInput.packet_out 0 (some (7, [42])))
      = StepResult.panicked []
    ∧ message_loop_step none demo_msg_state
        (MsgInput.packet_out 5 (some (1, [42])))
      = StepResult.panicked [] := by
  refine ⟨?_, ?_, ?_⟩
  · exact (c8_packet_routing none demo_msg_state 0 1 [42]).1 2
      (by decide) (by decide)
  · exact (c8_packet_routing none demo_msg_state 0 7 [42]).2.1 (by decide)
  · exact (c8_packet_routing none demo_msg_state 5 1 [42]).2.2 2
      (by decide) (by decide)

/-! ## C10: the identity one-shot and a second `IdAssigned` -/

/-- C10: every `PeerEvent::IdAssigned` — including one a remote peer
smuggles through the signaling loop's verbatim `PeerEvent` forwarding —
is handled by `id_tx.try_send(..).unwrap()`; after the first (genuine)
`IdAssigned` has used the one-shot identity channel, a second
`IdAssigned` makes that unwrap panic and aborts the message loop,
while a single `IdAssigned` leaves the loop running. -/
theorem c10_second_id_assigned_panics :
    handle_relay_message demo_crypto demo_keys
        (RelayMessage.Event demo_forged_id_event "sub")
      = [PeerEvent.IdAssigned 5]
    ∧ (message_loop none (init_state none)
        [MsgInput.peer_event (some (PeerEvent.IdAssigned demo_keys.public_key)),
         MsgInput.peer_event (some (PeerEvent.IdAssigned 5))]).ended
      = EndKind.panicked
    ∧ (message_loop none (init_state none)
        [MsgInput.peer_event
          (some (PeerEvent.IdAssigned demo_keys.public_key))]).ended
      = EndKind.exhausted := ⟨rfl, rfl, rfl⟩

end MatchboxNostr
